import Mathlib

/-!
Verification of the `rust-json` validator (src/validator.rs, src/utils.rs).

The document reader segments text into extended grapheme clusters and the
validator drives one finite state machine per JSON production over the
resulting unit sequence.  We embed the unit sequence directly: a `Grapheme`
is one atomic unit, kept as its first code point plus the remaining code
points (a cluster is never empty, which is what makes the Rust
`chars().nth(0).unwrap()` calls total).  All loops of the Rust code become
fuel-indexed structural recursions; the fuel and depth-gas amounts supplied
by the top-level `validate` are proved sufficient, which is the Rust
program's termination argument.

Rust `usize` subtraction `l - index` in `UTF8Reader::look_ahead` underflows
when `index > l` (a panic in debug builds); the reader result type has an
explicit `underflow` constructor for that case, and the state machines
propagate it as `none`, the same way a Rust panic would abort the run.
-/

/-- One atomic unit (extended grapheme cluster) of the document: its first
code point `hd` and the remaining code points `tl`.  A cluster is never
empty, so the first code point always exists. -/
structure Grapheme where
  hd : Char
  tl : String
deriving DecidableEq, Repr

/-- A single-code-point unit, such as a structural token. -/
def g1 (c : Char) : Grapheme := ⟨c, ""⟩

/-- The text of a unit, as the Rust `&str` slice of one grapheme. -/
def Grapheme.str (u : Grapheme) : String := String.singleton u.hd ++ u.tl

/-- The text spanned by a list of consecutive units. -/
def sliceStr (us : List Grapheme) : String := String.join (us.map Grapheme.str)

/-- The document reader: the sequence of atomic units produced by grapheme
segmentation of the input text (`UTF8Reader` in src/utils.rs). -/
structure UTF8Reader where
  units : List Grapheme
deriving DecidableEq, Repr

/-- Unit count of the document, `UTF8Reader::len` (the begin-index map has
`unit count + 1` entries and `len` subtracts one). -/
def UTF8Reader.len (d : UTF8Reader) : Nat := d.units.length

/-- Result of `UTF8Reader::look_ahead`: the requested slice, an
out-of-bound shortfall count, or the underflow of the Rust `usize`
subtraction `l - index` when `index > l` (a panic in debug builds). -/
inductive LookRes where
  | ok (s : String)
  | oob (n : Nat)
  | underflow
deriving DecidableEq, Repr

/-- `UTF8Reader::look_ahead (index, width)` from src/utils.rs: if
`index + width > len` the shortfall `len - index` is reported (underflowing
when `index > len`); otherwise the exact text spanning units
`[index, index + width)`. -/
def UTF8Reader.look_ahead (d : UTF8Reader) (index width : Nat) : LookRes :=
  if index + width > d.len then
    if index ≤ d.len then .oob (d.len - index) else .underflow
  else
    .ok (sliceStr ((d.units.drop index).take width))

/-- Width-one lookahead result: the unit itself rather than its text. -/
inductive Look1Res where
  | ok (u : Grapheme)
  | oob (n : Nat)
  | underflow
deriving DecidableEq, Repr

/-- Width-one lookahead, the form every state machine of the validator
uses: `look_ahead (index, 1)` returns one whole unit, kept here as the
`Grapheme` itself (see `look1_agrees_look_ahead` for the correspondence
with `look_ahead`). -/
def UTF8Reader.look1 (d : UTF8Reader) (index : Nat) : Look1Res :=
  if h : index < d.units.length then .ok (d.units.get ⟨index, h⟩)
  else if index = d.units.length then .oob 0
  else .underflow

/-- MAX_DEPTH from src/validator.rs. -/
def MAX_DEPTH : Nat := 100

/-- `is_insignificant_whitespace` from src/validator.rs: the unit equals
one of the four one-character whitespace tokens. -/
def is_insignificant_whitespace (u : Grapheme) : Bool :=
  decide (u = g1 '\t' ∨ u = g1 '\n' ∨ u = g1 '\r' ∨ u = g1 ' ')

/-- `is_valid_demical_number` from `validate_number`: classifies the unit
by its first code point only (`chars().nth(0)`). -/
def is_valid_demical_number (u : Grapheme) (non_zero : Bool) : Bool :=
  if '1' ≤ u.hd ∧ u.hd ≤ '9' then true
  else if u.hd = '0' then !non_zero
  else false

/-- `is_end_of_number` from `validate_number`: a structural delimiter or
insignificant whitespace closes a number. -/
def is_end_of_number (u : Grapheme) : Bool :=
  if u = g1 ',' ∨ u = g1 '\x7d' ∨ u = g1 ']' then true
  else is_insignificant_whitespace u

/-- `is_control_character` from `validate_string`: first code point at most
U+001F. -/
def is_control_character (u : Grapheme) : Bool :=
  decide (u.hd.toNat ≤ 0x1F)

/-- `is_hex_digit` from `validate_string`: first code point is a
case-insensitive hexadecimal digit. -/
def is_hex_digit (u : Grapheme) : Bool :=
  decide (('0' ≤ u.hd ∧ u.hd ≤ '9') ∨ ('A' ≤ u.hd ∧ u.hd ≤ 'F') ∨
    ('a' ≤ u.hd ∧ u.hd ≤ 'f'))

/-- Lower-case hexadecimal digit for code points below 0x100 (enough for
the control characters the messages ever escape). -/
def hexDigit (n : Nat) : String :=
  String.singleton (if n < 10 then Char.ofNat (48 + n) else Char.ofNat (87 + n))

/-- Two-digit-or-less lower-case hexadecimal rendering. -/
def hexLower (n : Nat) : String :=
  if n < 16 then hexDigit n else hexDigit (n / 16) ++ hexDigit (n % 16)

/-- Rust `char::escape_debug` for the characters that can reach a message
(ASCII and the C0 controls); other characters render as themselves. -/
def rust_debug_char (c : Char) : String :=
  if c = '"' then "\\\""
  else if c = '\\' then "\\\\"
  else if c = '\n' then "\\n"
  else if c = '\r' then "\\r"
  else if c = '\t' then "\\t"
  else if c = Char.ofNat 0 then "\\0"
  else if c.toNat < 0x20 then "\\u\x7b" ++ hexLower c.toNat ++ "\x7d"
  else String.singleton c

/-- Rust `{:?}` (Debug) rendering of a string slice: surrounding quotes
with each character escaped. -/
def rust_debug_str (s : String) : String :=
  "\"" ++ String.join (s.toList.map rust_debug_char) ++ "\""

/-- Outcome-and-consumed-width pair every grammar production returns,
`(Result<(), String>, usize)` in src/validator.rs. -/
abbrev VRes := Except String Unit × Nat

instance : DecidableEq (Except String Unit) := fun a b =>
  match a, b with
  | .ok (), .ok () => isTrue rfl
  | .error x, .error y =>
    if h : x = y then isTrue (by rw [h])
    else isFalse (fun hc => h (by cases hc; rfl))
  | .ok _, .error _ => isFalse (fun hc => by cases hc)
  | .error _, .ok _ => isFalse (fun hc => by cases hc)

/-- `validate_true` from src/validator.rs: fixed-width lookahead of 4
units compared verbatim against `true`. -/
def validate_true (doc : UTF8Reader) (start : Nat) : Option VRes :=
  match doc.look_ahead start 4 with
  | .underflow => none
  | .oob i => some (.error "Incomplete literal name \"true\"", i)
  | .ok name =>
    if name = "true" then some (.ok (), 4)
    else some (.error ("It seems to be the plain value \"true\", but got \""
      ++ name ++ "\""), 4)

/-- `validate_false` from src/validator.rs: fixed-width lookahead of 5
units compared verbatim against `false`. -/
def validate_false (doc : UTF8Reader) (start : Nat) : Option VRes :=
  match doc.look_ahead start 5 with
  | .underflow => none
  | .oob i => some (.error "Incomplete literal name \"false\"", i)
  | .ok name =>
    if name = "false" then some (.ok (), 5)
    else some (.error ("It seems to be the plain value \"false\", but got \""
      ++ name ++ "\""), 5)

/-- `validate_null` from src/validator.rs: fixed-width lookahead of 4
units compared verbatim against `null`. -/
def validate_null (doc : UTF8Reader) (start : Nat) : Option VRes :=
  match doc.look_ahead start 4 with
  | .underflow => none
  | .oob i => some (.error "Incomplete literal name \"null\"", i)
  | .ok name =>
    if name = "null" then some (.ok (), 4)
    else some (.error ("It seems to be the plain value \"null\", but got \""
      ++ name ++ "\""), 4)

/-- States of the `validate_number` machine. -/
inductive NState where
  | Begin
  | LeadingMinus
  | LeadingZero
  | Integer
  | PendingFraction
  | Fraction
  | ExponentSign
  | PendingExponent
  | Exponent
deriving DecidableEq, Repr

/-- The `validate_number` loop of src/validator.rs, fuel-indexed: one fuel
unit per loop iteration (`none` = fuel exhausted, or width-one lookahead
underflow). -/
def numLoop (doc : UTF8Reader) (start : Nat) : Nat → NState → Nat → Option VRes
  | 0, _, _ => none
  | f + 1, st, ptr =>
    match doc.look1 (start + ptr) with
    | .underflow => none
    | .oob tail_offset =>
      match st with
      | .LeadingZero | .Integer | .Fraction | .Exponent => some (.ok (), ptr)
      | _ => some (.error "Incomplete number value", tail_offset)
    | .ok u =>
      match st with
      | .Begin =>
        if u = g1 '-' then numLoop doc start f .LeadingMinus (ptr + 1)
        else if u = g1 '0' then numLoop doc start f .LeadingZero (ptr + 1)
        else if is_valid_demical_number u true then
          numLoop doc start f .Integer (ptr + 1)
        else some (.error ("Invalid number leading: " ++ rust_debug_str u.str), ptr)
      | .LeadingMinus =>
        if u = g1 '0' then numLoop doc start f .LeadingZero (ptr + 1)
        else if is_valid_demical_number u true then
          numLoop doc start f .Integer (ptr + 1)
        else some (.error ("Invalid character after leading minus: "
          ++ rust_debug_str u.str), ptr)
      | .LeadingZero =>
        if u = g1 '.' then numLoop doc start f .PendingFraction (ptr + 1)
        else if u = g1 'e' ∨ u = g1 'E' then
          numLoop doc start f .ExponentSign (ptr + 1)
        else if is_valid_demical_number u false then
          some (.error "Leading zeros are not allowed", ptr)
        else if is_end_of_number u then some (.ok (), ptr)
        else some (.error ("Invalid character after leading zero: "
          ++ rust_debug_str u.str), ptr)
      | .Integer =>
        if u = g1 '.' then numLoop doc start f .PendingFraction (ptr + 1)
        else if u = g1 'e' ∨ u = g1 'E' then
          numLoop doc start f .ExponentSign (ptr + 1)
        else if is_valid_demical_number u false then
          numLoop doc start f .Integer (ptr + 1)
        else if is_end_of_number u then some (.ok (), ptr)
        else some (.error ("Invalid character in interger part: "
          ++ rust_debug_str u.str), ptr)
      | .PendingFraction =>
        if is_valid_demical_number u false then
          numLoop doc start f .Fraction (ptr + 1)
        else some (.error ("Invalid character after demical point: "
          ++ rust_debug_str u.str), ptr)
      | .Fraction =>
        if u = g1 'e' ∨ u = g1 'E' then
          numLoop doc start f .ExponentSign (ptr + 1)
        else if is_valid_demical_number u false then
          numLoop doc start f .Fraction (ptr + 1)
        else if is_end_of_number u then some (.ok (), ptr)
        else some (.error ("Invalid character in fraction part: "
          ++ rust_debug_str u.str), ptr)
      | .ExponentSign =>
        if u = g1 '+' ∨ u = g1 '-' then
          numLoop doc start f .PendingExponent (ptr + 1)
        else if is_valid_demical_number u false then
          numLoop doc start f .Exponent (ptr + 1)
        else some (.error ("Invalid character in exponent part: "
          ++ rust_debug_str u.str), ptr)
      | .PendingExponent =>
        if is_valid_demical_number u false then
          numLoop doc start f .Exponent (ptr + 1)
        else some (.error ("Invalid character in exponent part: "
          ++ rust_debug_str u.str), ptr)
      | .Exponent =>
        if is_valid_demical_number u false then
          numLoop doc start f .Exponent (ptr + 1)
        else if is_end_of_number u then some (.ok (), ptr)
        else some (.error ("Invalid character in exponent part: "
          ++ rust_debug_str u.str), ptr)

/-- `validate_number` from src/validator.rs: the number machine started in
`Begin` with enough fuel for everything the loop can do. -/
def validate_number (doc : UTF8Reader) (start : Nat) : Option VRes :=
  numLoop doc start (doc.len + 2) .Begin 0

/-- States of the `validate_string` machine. -/
inductive SState where
  | Begin
  | PlainText
  | Escaping
  | Unicode
deriving DecidableEq, Repr

/-- The `validate_string` loop of src/validator.rs, fuel-indexed; the last
`Nat` argument is the running `unicode_len` counter. -/
def strLoop (doc : UTF8Reader) (start : Nat) :
    Nat → SState → Nat → Nat → Option VRes
  | 0, _, _, _ => none
  | f + 1, st, ptr, ulen =>
    match doc.look1 (start + ptr) with
    | .underflow => none
    | .oob i => some (.error "Incomplete string value", i)
    | .ok u =>
      match st with
      | .Begin =>
        if u = g1 '"' then strLoop doc start f .PlainText (ptr + 1) ulen
        else some (.error "String value should start with \"", ptr)
      | .PlainText =>
        if u = g1 '"' then some (.ok (), ptr + 1)
        else if u = g1 '\\' then strLoop doc start f .Escaping (ptr + 1) ulen
        else if is_control_character u then
          some (.error ("Control character \"" ++ u.str
            ++ "\" should be escaped"), ptr)
        else strLoop doc start f .PlainText (ptr + 1) ulen
      | .Escaping =>
        if u = g1 '"' ∨ u = g1 '\\' ∨ u = g1 '/' ∨ u = g1 'b' ∨ u = g1 'f'
            ∨ u = g1 'n' ∨ u = g1 'r' ∨ u = g1 't' then
          strLoop doc start f .PlainText (ptr + 1) ulen
        else if u = g1 'u' then strLoop doc start f .Unicode (ptr + 1) ulen
        else some (.error ("Invalid escaping character: "
          ++ rust_debug_str u.str), ptr)
      | .Unicode =>
        if is_hex_digit u then
          if ulen + 1 = 4 then strLoop doc start f .PlainText (ptr + 1) 0
          else strLoop doc start f .Unicode (ptr + 1) (ulen + 1)
        else some (.error ("Invalid unicode sequence: "
          ++ rust_debug_str u.str), ptr)

/-- `validate_string` from src/validator.rs: the string machine started in
`Begin` with `unicode_len = 0`. -/
def validate_string (doc : UTF8Reader) (start : Nat) : Option VRes :=
  strLoop doc start (doc.len + 2) .Begin 0 0

/-- States of the `validate_object` machine. -/
inductive OState where
  | Begin
  | PreKey
  | Key
  | PreValue
  | Value
  | PostValue
deriving DecidableEq, Repr

/-- The `validate_object` loop of src/validator.rs, fuel-indexed and
parameterized by the value dispatcher `sub` it calls in `Value` state
(`validate_json_value` at the object's depth). -/
def objLoop (doc : UTF8Reader) (sub : Nat → Option VRes) (start : Nat) :
    Nat → OState → Nat → Option VRes
  | 0, _, _ => none
  | f + 1, st, ptr =>
    match doc.look1 (start + ptr) with
    | .underflow => none
    | .oob i => some (.error "Incomplete number value", i)
    | .ok u =>
      match st with
      | .Begin =>
        if u = g1 '\x7b' then objLoop doc sub start f .PreKey (ptr + 1)
        else some (.error "Object should start with \"\x7b\"", ptr)
      | .PreKey =>
        if u = g1 '\x7d' then some (.ok (), ptr + 1)
        else if is_insignificant_whitespace u then
          objLoop doc sub start f .PreKey (ptr + 1)
        else
          match validate_string doc (start + ptr) with
          | none => none
          | some (r, step) =>
            match r with
            | .ok _ => objLoop doc sub start f .PreValue (ptr + step)
            | .error _ =>
              some (.error "Object key should be a valid string", ptr + step)
      | .Key =>
        if is_insignificant_whitespace u then
          objLoop doc sub start f .Key (ptr + 1)
        else
          match validate_string doc (start + ptr) with
          | none => none
          | some (r, step) =>
            match r with
            | .ok _ => objLoop doc sub start f .PreValue (ptr + step)
            | .error _ =>
              some (.error "Object key should be a valid string", ptr + step)
      | .PreValue =>
        if u = g1 ':' then objLoop doc sub start f .Value (ptr + 1)
        else if is_insignificant_whitespace u then
          objLoop doc sub start f .PreValue (ptr + 1)
        else some (.error ("Invalid character after object key: \""
          ++ u.str ++ "\""), ptr)
      | .Value =>
        if is_insignificant_whitespace u then
          objLoop doc sub start f .Value (ptr + 1)
        else
          match sub (start + ptr) with
          | none => none
          | some (r, step) =>
            match r with
            | .ok _ => objLoop doc sub start f .PostValue (ptr + step)
            | .error e => some (.error e, ptr + step)
      | .PostValue =>
        if u = g1 '\x7d' then some (.ok (), ptr + 1)
        else if u = g1 ',' then objLoop doc sub start f .Key (ptr + 1)
        else if is_insignificant_whitespace u then
          objLoop doc sub start f .PostValue (ptr + 1)
        else some (.error ("Invalid character after object value: \""
          ++ u.str ++ "\""), ptr)

/-- Entry of `validate_object`: the depth guard, checked once before the
loop starts, then the loop in `Begin` with full fuel. -/
def objEntry (doc : UTF8Reader) (sub : Nat → Option VRes)
    (start depth : Nat) : Option VRes :=
  if depth > MAX_DEPTH then some (.error "Nested JSON value is too deep", 0)
  else objLoop doc sub start (doc.len + 2) .Begin 0

/-- States of the `validate_array` machine. -/
inductive AState where
  | Begin
  | PreValue
  | Value
  | PostValue
deriving DecidableEq, Repr

/-- The `validate_array` loop of src/validator.rs, fuel-indexed and
parameterized by the value dispatcher `sub` for its `PreValue` and
`Value` states. -/
def arrLoop (doc : UTF8Reader) (sub : Nat → Option VRes) (start : Nat) :
    Nat → AState → Nat → Option VRes
  | 0, _, _ => none
  | f + 1, st, ptr =>
    match doc.look1 (start + ptr) with
    | .underflow => none
    | .oob i => some (.error "Incomplete number value", i)
    | .ok u =>
      match st with
      | .Begin =>
        if u = g1 '[' then arrLoop doc sub start f .PreValue (ptr + 1)
        else some (.error "Array should start with \"[\"", ptr)
      | .PreValue =>
        if u = g1 ']' then some (.ok (), ptr + 1)
        else if is_insignificant_whitespace u then
          arrLoop doc sub start f .PreValue (ptr + 1)
        else
          match sub (start + ptr) with
          | none => none
          | some (r, step) =>
            match r with
            | .ok _ => arrLoop doc sub start f .PostValue (ptr + step)
            | .error e => some (.error e, ptr + step)
      | .Value =>
        if is_insignificant_whitespace u then
          arrLoop doc sub start f .Value (ptr + 1)
        else
          match sub (start + ptr) with
          | none => none
          | some (r, step) =>
            match r with
            | .ok _ => arrLoop doc sub start f .PostValue (ptr + step)
            | .error e => some (.error e, ptr + step)
      | .PostValue =>
        if u = g1 ']' then some (.ok (), ptr + 1)
        else if u = g1 ',' then arrLoop doc sub start f .Value (ptr + 1)
        else if is_insignificant_whitespace u then
          arrLoop doc sub start f .PostValue (ptr + 1)
        else some (.error ("Invalid character: \"" ++ u.str ++ "\""), ptr)

/-- Entry of `validate_array`: depth guard then the loop. -/
def arrEntry (doc : UTF8Reader) (sub : Nat → Option VRes)
    (start depth : Nat) : Option VRes :=
  if depth > MAX_DEPTH then some (.error "Nested JSON value is too deep", 0)
  else arrLoop doc sub start (doc.len + 2) .Begin 0

/-- Unit-equality test of the dispatch table of `validate_json_value`: the
unit equals one of the ten one-character number leading tokens. -/
def is_number_leading (u : Grapheme) : Bool :=
  decide (u = g1 '0' ∨ u = g1 '1' ∨ u = g1 '2' ∨ u = g1 '3' ∨ u = g1 '4'
    ∨ u = g1 '5' ∨ u = g1 '6' ∨ u = g1 '7' ∨ u = g1 '8' ∨ u = g1 '9'
    ∨ u = g1 '-')

/-- `validate_json_value` of src/validator.rs as a family indexed by the
remaining recursion gas: one gas unit per nesting level.  Entering an
object or array passes the dispatcher at one gas less and the incremented
depth, exactly as the Rust call `validate_object(document, index, depth+1)`
re-enters `validate_json_value` from the object's `Value` state. -/
def jsonValue (doc : UTF8Reader) : Nat → Nat → Nat → Option VRes
  | 0, _, _ => none
  | g + 1, index, depth =>
    match doc.look1 index with
    | .underflow => none
    | .oob _ => some (.error "Look ahead out of bound", 1)
    | .ok u =>
      if u = g1 '\x7b' then
        objEntry doc (fun i => jsonValue doc g i (depth + 1)) index (depth + 1)
      else if u = g1 '[' then
        arrEntry doc (fun i => jsonValue doc g i (depth + 1)) index (depth + 1)
      else if is_number_leading u then validate_number doc index
      else if u = g1 '"' then validate_string doc index
      else if u = g1 't' then validate_true doc index
      else if u = g1 'f' then validate_false doc index
      else if u = g1 'n' then validate_null doc index
      else some (.error ("Unknown character: \"" ++ u.str ++ "\""), 1)

/-- `validate_json_value` at its canonical gas: a run started by `validate`
at depth 0 reaches depth `depth` with exactly `102 - depth` gas left, and
the depth guard keeps every reachable depth at most 101. -/
def validate_json_value (doc : UTF8Reader) (index depth : Nat) : Option VRes :=
  jsonValue doc (102 - depth) index depth

/-- `validate_object` at its canonical gas (see `validate_json_value`). -/
def validate_object (doc : UTF8Reader) (start depth : Nat) : Option VRes :=
  objEntry doc (fun i => jsonValue doc (102 - depth) i depth) start depth

/-- `validate_array` at its canonical gas (see `validate_json_value`). -/
def validate_array (doc : UTF8Reader) (start depth : Nat) : Option VRes :=
  arrEntry doc (fun i => jsonValue doc (102 - depth) i depth) start depth

/-- The `error` helper local to `validate`: the full message carrying the
1-based unit position. -/
def verror (index : Nat) (reason : String) : String :=
  "Validation Error @ 1:" ++ toString (index + 1) ++ "\nReason: " ++ reason

/-- States of the top-level driver loop of `validate`. -/
inductive VState where
  | PreDocument
  | PostDocument
deriving DecidableEq, Repr

/-- The top-level driver loop of `validate`: skip leading whitespace,
consume exactly one JSON value, then accept only trailing whitespace. -/
def vLoop (doc : UTF8Reader) : Nat → VState → Nat → Option (Except String Unit)
  | 0, _, _ => none
  | f + 1, st, ptr =>
    match doc.look1 ptr with
    | .underflow => none
    | .oob _ =>
      match st with
      | .PreDocument => some (.error (verror ptr "No valid JSON value found"))
      | .PostDocument => some (.ok ())
    | .ok u =>
      match st with
      | .PreDocument =>
        if is_insignificant_whitespace u then vLoop doc f .PreDocument (ptr + 1)
        else
          match validate_json_value doc ptr 0 with
          | none => none
          | some (r, step) =>
            match r with
            | .ok _ => vLoop doc f .PostDocument (ptr + step)
            | .error reason => some (.error (verror (ptr + step) reason))
      | .PostDocument =>
        if is_insignificant_whitespace u then vLoop doc f .PostDocument (ptr + 1)
        else some (.error (verror ptr ("Expect EOF, but found \""
          ++ u.str ++ "\"")))

/-- `validate` from src/validator.rs: empty-document check, then the driver
loop.  `some` is the Rust function returning; `none` would be a panic or
fuel exhaustion, and is proved impossible. -/
def validate (doc : UTF8Reader) : Option (Except String Unit) :=
  if doc.len = 0 then
    some (.error (verror 0 "JSON document can not be empty"))
  else vLoop doc (doc.len + 2) .PreDocument 0

/-- A document of single-code-point units: the segmentation the reader
produces for text with no combining sequences (ASCII in particular). -/
def asciiDoc (s : String) : UTF8Reader := ⟨s.toList.map g1⟩

/-! ## Reader lemmas -/

/-- The slice text of a single unit is that unit's text. -/
theorem sliceStr_singleton (u : Grapheme) : sliceStr [u] = u.str := by
  show String.join [u.str] = u.str
  cases hs : u.str
  rfl

/-- Width-one lookahead succeeds exactly on in-range indices. -/
theorem look1_ok_of_lt (d : UTF8Reader) (i : Nat) (h : i < d.units.length) :
    d.look1 i = .ok (d.units.get ⟨i, h⟩) := by
  simp [UTF8Reader.look1, h]

theorem look1_oob_of_eq (d : UTF8Reader) (i : Nat) (h : i = d.units.length) :
    d.look1 i = .oob 0 := by
  simp [UTF8Reader.look1, h]

theorem look1_underflow_of_gt (d : UTF8Reader) (i : Nat)
    (h : d.units.length < i) : d.look1 i = .underflow := by
  have h1 : ¬ i < d.units.length := by omega
  have h2 : ¬ i = d.units.length := by omega
  simp [UTF8Reader.look1, h1, h2]

theorem look1_ok_lt (d : UTF8Reader) (i : Nat) (u : Grapheme)
    (h : d.look1 i = .ok u) : i < d.units.length := by
  by_cases hlt : i < d.units.length
  · exact hlt
  · by_cases he : i = d.units.length
    · rw [look1_oob_of_eq d i he] at h; cases h
    · rw [look1_underflow_of_gt d i (by omega)] at h; cases h

theorem look1_oob_eq (d : UTF8Reader) (i n : Nat)
    (h : d.look1 i = .oob n) : i = d.units.length ∧ n = 0 := by
  by_cases hlt : i < d.units.length
  · rw [look1_ok_of_lt d i hlt] at h; cases h
  · by_cases he : i = d.units.length
    · rw [look1_oob_of_eq d i he] at h
      cases h; exact ⟨he, rfl⟩
    · rw [look1_underflow_of_gt d i (by omega)] at h; cases h

/-- The width-one specialization agrees with `look_ahead` at width 1: the
unit returned by `look1` is the one-unit slice of `look_ahead`, and the two
agree on the shortfall and underflow cases. -/
theorem look1_agrees_look_ahead (d : UTF8Reader) (i : Nat) :
    (∀ u, d.look1 i = .ok u → d.look_ahead i 1 = .ok u.str) ∧
    (∀ n, d.look1 i = .oob n → d.look_ahead i 1 = .oob n) ∧
    (d.look1 i = .underflow → d.look_ahead i 1 = .underflow) := by
  refine ⟨?_, ?_, ?_⟩
  · intro u h
    have hlt := look1_ok_lt d i u h
    rw [look1_ok_of_lt d i hlt] at h
    cases h
    have h1 : ¬ i + 1 > d.len := by
      simp [UTF8Reader.len]; omega
    simp only [UTF8Reader.look_ahead, h1, if_false]
    have hd1 : (d.units.drop i).take 1 = [d.units[i]] := by
      rw [List.drop_eq_getElem_cons hlt]
      rfl
    rw [hd1, sliceStr_singleton]
    simp [List.get_eq_getElem]
  · intro n h
    obtain ⟨he, hn⟩ := look1_oob_eq d i n h
    subst hn
    have h1 : i + 1 > d.len := by simp [UTF8Reader.len]; omega
    have h2 : i ≤ d.len := by simp [UTF8Reader.len]; omega
    simp [UTF8Reader.look_ahead, h1, h2, UTF8Reader.len, he]
  · intro h
    by_cases hlt : i < d.units.length
    · rw [look1_ok_of_lt d i hlt] at h; cases h
    · by_cases he : i = d.units.length
      · rw [look1_oob_of_eq d i he] at h; cases h
      · have h1 : i + 1 > d.len := by simp [UTF8Reader.len]; omega
        have h2 : ¬ i ≤ d.len := by simp [UTF8Reader.len]; omega
        simp [UTF8Reader.look_ahead, h1, h2]

/-! ## Claim C2: the lookahead contract -/

/-- C2, counterexample: `look_ahead` at an index greater than the unit
count does not return a remaining-units count — the Rust `usize`
subtraction `l - index` underflows there (a panic in a debug build), so on
the one-unit document the call `look_ahead(2, 1)` does not produce the
shortfall 0 the claim promises. -/
theorem C2_look_ahead_past_end_underflows :
    (⟨[g1 'a']⟩ : UTF8Reader).look_ahead 2 1 = .underflow ∧
    LookRes.underflow ≠ LookRes.oob 0 := by
  constructor
  · decide
  · decide

/-- C2, amended: for every index `i` at most the unit count and every
width `W`, `look_ahead i W` returns the exact text spanning units
`[i, i + W)` when `i + W` is at most the unit count, and otherwise the
count of units remaining after `i`, which is 0 exactly at end of input.
(For `i` greater than the unit count the subtraction `len - i` underflows,
so the original claim's no-panic guarantee only holds up to the count.) -/
theorem C2_look_ahead_spec (d : UTF8Reader) (i W : Nat) (h : i ≤ d.len) :
    (i + W ≤ d.len → d.look_ahead i W = .ok (sliceStr ((d.units.drop i).take W))) ∧
    (d.len < i + W →
      d.look_ahead i W = .oob (d.len - i) ∧ (d.len - i = 0 ↔ i = d.len)) := by
  constructor
  · intro hle
    have h1 : ¬ i + W > d.len := by omega
    simp [UTF8Reader.look_ahead, h1]
  · intro hgt
    have h1 : i + W > d.len := hgt
    constructor
    · simp [UTF8Reader.look_ahead, h1, h]
    · omega

/-- Witness for `C2_look_ahead_spec` on a concrete two-unit document. -/
theorem C2_look_ahead_spec_witness :
    (1 ≤ (⟨[g1 'a', g1 'b']⟩ : UTF8Reader).len) ∧
    ((1 + 3 ≤ (⟨[g1 'a', g1 'b']⟩ : UTF8Reader).len →
      (⟨[g1 'a', g1 'b']⟩ : UTF8Reader).look_ahead 1 3 =
        .ok (sliceStr (((⟨[g1 'a', g1 'b']⟩ : UTF8Reader).units.drop 1).take 3))) ∧
    ((⟨[g1 'a', g1 'b']⟩ : UTF8Reader).len < 1 + 3 →
      (⟨[g1 'a', g1 'b']⟩ : UTF8Reader).look_ahead 1 3 =
        .oob ((⟨[g1 'a', g1 'b']⟩ : UTF8Reader).len - 1) ∧
      ((⟨[g1 'a', g1 'b']⟩ : UTF8Reader).len - 1 = 0 ↔
        1 = (⟨[g1 'a', g1 'b']⟩ : UTF8Reader).len))) :=
  ⟨by decide, C2_look_ahead_spec ⟨[g1 'a', g1 'b']⟩ 1 3 (by decide)⟩

/-! ## String machine lemmas -/

/-- The string loop always terminates with an answer: fuel covering the
remaining units is enough, and every lookahead it performs stays in
bounds. -/
theorem strLoop_isSome (doc : UTF8Reader) (start : Nat) :
    ∀ f st ptr ulen, start + ptr ≤ doc.len →
    doc.len + 1 ≤ f + (start + ptr) →
    (strLoop doc start f st ptr ulen).isSome := by
  have hlen : doc.len = doc.units.length := rfl
  intro f
  induction f with
  | zero => intro st ptr ulen h1 h2; omega
  | succ f ih =>
    intro st ptr ulen h1 h2
    rcases Nat.lt_or_ge (start + ptr) doc.units.length with hlt | hge
    · have hl := look1_ok_of_lt doc (start + ptr) hlt
      cases st
      all_goals simp only [strLoop, hl]
      all_goals repeat' split
      all_goals
        first
          | simp
          | exact ih _ _ _ (by omega) (by omega)
    · have heq : start + ptr = doc.units.length := by omega
      simp [strLoop, look1_oob_of_eq doc _ heq]

/-- On success the string machine has consumed at least one unit beyond
`ptr` and never runs past the end of the document. -/
theorem strLoop_ok_width (doc : UTF8Reader) (start : Nat) :
    ∀ f st ptr ulen x w,
    strLoop doc start f st ptr ulen = some (.ok x, w) →
    ptr < w ∧ start + w ≤ doc.len := by
  have hlen : doc.len = doc.units.length := rfl
  intro f
  induction f with
  | zero => intro st ptr ulen x w h; simp [strLoop] at h
  | succ f ih =>
    intro st ptr ulen x w h
    rcases Nat.lt_or_ge (start + ptr) doc.units.length with hlt | hge
    · have hl := look1_ok_of_lt doc (start + ptr) hlt
      cases st
      all_goals simp only [strLoop, hl] at h
      all_goals revert h
      all_goals repeat' split
      all_goals intro h
      all_goals
        first
          | (have hw := ih _ _ _ _ _ h; omega)
          | (simp at h; done)
          | (simp only [Option.some.injEq, Prod.mk.injEq] at h;
             obtain ⟨h1, h2⟩ := h; omega)
    · rcases Nat.eq_or_lt_of_le hge with heq | hgt
      · simp [strLoop, look1_oob_of_eq doc _ heq.symm] at h
      · simp [strLoop, look1_underflow_of_gt doc _ hgt] at h

/-- `validate_string` always returns when started in bounds. -/
theorem validate_string_isSome (doc : UTF8Reader) (start : Nat)
    (h : start ≤ doc.len) : (validate_string doc start).isSome :=
  strLoop_isSome doc start (doc.len + 2) .Begin 0 0 (by omega) (by omega)

/-- A successful `validate_string` consumed at least one unit and stayed
within the document. -/
theorem validate_string_ok_width (doc : UTF8Reader) (start : Nat)
    (x : Unit) (w : Nat) (h : validate_string doc start = some (.ok x, w)) :
    1 ≤ w ∧ start + w ≤ doc.len := by
  have hw := strLoop_ok_width doc start (doc.len + 2) .Begin 0 0 x w h
  omega

/-! ## Number machine lemmas -/

/-- The number loop always terminates with an answer when started in
bounds. -/
theorem numLoop_isSome (doc : UTF8Reader) (start : Nat) :
    ∀ f st ptr, start + ptr ≤ doc.len →
    doc.len + 1 ≤ f + (start + ptr) →
    (numLoop doc start f st ptr).isSome := by
  have hlen : doc.len = doc.units.length := rfl
  intro f
  induction f with
  | zero => intro st ptr h1 h2; omega
  | succ f ih =>
    intro st ptr h1 h2
    rcases Nat.lt_or_ge (start + ptr) doc.units.length with hlt | hge
    · have hl := look1_ok_of_lt doc (start + ptr) hlt
      cases st
      all_goals simp only [numLoop, hl]
      all_goals repeat' split
      all_goals
        first
          | simp
          | exact ih _ _ (by omega) (by omega)
    · have heq : start + ptr = doc.units.length := by omega
      cases st
      all_goals simp [numLoop, look1_oob_of_eq doc _ heq]

/-- On success the number machine's consumed width is at least `ptr` and
stays within the document. -/
theorem numLoop_ok_width (doc : UTF8Reader) (start : Nat) :
    ∀ f st ptr x w,
    numLoop doc start f st ptr = some (.ok x, w) →
    ptr ≤ w ∧ start + w ≤ doc.len := by
  have hlen : doc.len = doc.units.length := rfl
  intro f
  induction f with
  | zero => intro st ptr x w h; simp [numLoop] at h
  | succ f ih =>
    intro st ptr x w h
    rcases Nat.lt_or_ge (start + ptr) doc.units.length with hlt | hge
    · have hl := look1_ok_of_lt doc (start + ptr) hlt
      cases st
      all_goals simp only [numLoop, hl] at h
      all_goals revert h
      all_goals repeat' split
      all_goals intro h
      all_goals
        first
          | (have hw := ih _ _ _ _ h; omega)
          | (simp at h; done)
          | (simp only [Option.some.injEq, Prod.mk.injEq] at h;
             obtain ⟨h1, h2⟩ := h; omega)
    · rcases Nat.eq_or_lt_of_le hge with heq | hgt
      · cases st
        all_goals simp only [numLoop, look1_oob_of_eq doc _ heq.symm] at h
        all_goals
          first
            | (simp at h; done)
            | (simp only [Option.some.injEq, Prod.mk.injEq] at h;
               obtain ⟨h1, h2⟩ := h; omega)
      · simp [numLoop, look1_underflow_of_gt doc _ hgt] at h

/-- `validate_number` always returns when started in bounds. -/
theorem validate_number_isSome (doc : UTF8Reader) (start : Nat)
    (h : start ≤ doc.len) : (validate_number doc start).isSome :=
  numLoop_isSome doc start (doc.len + 2) .Begin 0 (by omega) (by omega)

/-- One step from `Begin`: a success of the number machine started in
`Begin` consumed at least one unit (the `Begin` state never returns
success by itself) and stayed within the document. -/
theorem numLoop_begin_ok_width (doc : UTF8Reader) (start : Nat) :
    ∀ f x w, numLoop doc start (f + 1) .Begin 0 = some (.ok x, w) →
    1 ≤ w ∧ start + w ≤ doc.len := by
  have hlen : doc.len = doc.units.length := rfl
  intro f x w h
  cases hc : doc.look1 start with
  | underflow => simp [numLoop, hc] at h
  | oob n => simp [numLoop, hc] at h
  | ok u =>
    simp only [numLoop, Nat.add_zero, hc] at h
    revert h
    repeat' split
    all_goals intro h
    all_goals
      first
        | (have hw := numLoop_ok_width doc start _ _ _ _ _ h; omega)
        | (simp at h; done)

/-- A successful `validate_number` consumed at least one unit and stayed
within the document. -/
theorem validate_number_ok_width (doc : UTF8Reader) (start : Nat)
    (x : Unit) (w : Nat) (h : validate_number doc start = some (.ok x, w)) :
    1 ≤ w ∧ start + w ≤ doc.len :=
  numLoop_begin_ok_width doc start (doc.len + 1) x w h

/-! ## Literal matcher lemmas -/

/-- A successful wide lookahead is in bounds. -/
theorem look_ahead_ok_bound (d : UTF8Reader) (i W : Nat) (s : String)
    (h : d.look_ahead i W = .ok s) : i + W ≤ d.len := by
  by_contra hc
  push_neg at hc
  by_cases h2 : i ≤ d.len
  · simp [UTF8Reader.look_ahead, hc, h2] at h
  · simp [UTF8Reader.look_ahead, hc, h2] at h

/-- Lookahead underflows only past the end of the document. -/
theorem look_ahead_underflow_gt (d : UTF8Reader) (i W : Nat)
    (h : d.look_ahead i W = .underflow) : d.len < i := by
  by_cases hc : i + W > d.len
  · by_cases h2 : i ≤ d.len
    · simp [UTF8Reader.look_ahead, hc, h2] at h
    · omega
  · simp [UTF8Reader.look_ahead, hc] at h

/-- `validate_true` always returns when started in bounds. -/
theorem validate_true_isSome (doc : UTF8Reader) (start : Nat)
    (h : start ≤ doc.len) : (validate_true doc start).isSome := by
  cases hc : doc.look_ahead start 4 with
  | ok s => simp only [validate_true, hc]; split <;> simp
  | oob n => simp [validate_true, hc]
  | underflow => have := look_ahead_underflow_gt doc start 4 hc; omega

/-- A successful `validate_true` consumed exactly 4 units, in bounds. -/
theorem validate_true_ok_width (doc : UTF8Reader) (start : Nat)
    (x : Unit) (w : Nat) (h : validate_true doc start = some (.ok x, w)) :
    1 ≤ w ∧ start + w ≤ doc.len := by
  cases hc : doc.look_ahead start 4 with
  | underflow => simp [validate_true, hc] at h
  | oob n => simp [validate_true, hc] at h
  | ok s =>
    have hb := look_ahead_ok_bound doc start 4 s hc
    simp only [validate_true, hc] at h
    split at h
    · simp only [Option.some.injEq, Prod.mk.injEq] at h
      obtain ⟨h1, h2⟩ := h
      omega
    · simp at h

/-- `validate_false` always returns when started in bounds. -/
theorem validate_false_isSome (doc : UTF8Reader) (start : Nat)
    (h : start ≤ doc.len) : (validate_false doc start).isSome := by
  cases hc : doc.look_ahead start 5 with
  | ok s => simp only [validate_false, hc]; split <;> simp
  | oob n => simp [validate_false, hc]
  | underflow => have := look_ahead_underflow_gt doc start 5 hc; omega

/-- A successful `validate_false` consumed exactly 5 units, in bounds. -/
theorem validate_false_ok_width (doc : UTF8Reader) (start : Nat)
    (x : Unit) (w : Nat) (h : validate_false doc start = some (.ok x, w)) :
    1 ≤ w ∧ start + w ≤ doc.len := by
  cases hc : doc.look_ahead start 5 with
  | underflow => simp [validate_false, hc] at h
  | oob n => simp [validate_false, hc] at h
  | ok s =>
    have hb := look_ahead_ok_bound doc start 5 s hc
    simp only [validate_false, hc] at h
    split at h
    · simp only [Option.some.injEq, Prod.mk.injEq] at h
      obtain ⟨h1, h2⟩ := h
      omega
    · simp at h

/-- `validate_null` always returns when started in bounds. -/
theorem validate_null_isSome (doc : UTF8Reader) (start : Nat)
    (h : start ≤ doc.len) : (validate_null doc start).isSome := by
  cases hc : doc.look_ahead start 4 with
  | ok s => simp only [validate_null, hc]; split <;> simp
  | oob n => simp [validate_null, hc]
  | underflow => have := look_ahead_underflow_gt doc start 4 hc; omega

/-- A successful `validate_null` consumed exactly 4 units, in bounds. -/
theorem validate_null_ok_width (doc : UTF8Reader) (start : Nat)
    (x : Unit) (w : Nat) (h : validate_null doc start = some (.ok x, w)) :
    1 ≤ w ∧ start + w ≤ doc.len := by
  cases hc : doc.look_ahead start 4 with
  | underflow => simp [validate_null, hc] at h
  | oob n => simp [validate_null, hc] at h
  | ok s =>
    have hb := look_ahead_ok_bound doc start 4 s hc
    simp only [validate_null, hc] at h
    split at h
    · simp only [Option.some.injEq, Prod.mk.injEq] at h
      obtain ⟨h1, h2⟩ := h
      omega
    · simp at h

/-! ## Object and array machine lemmas -/

/-- The object loop always terminates with an answer when started in
bounds, provided its value dispatcher always answers and, on success,
consumes at least one unit staying within the document. -/
theorem objLoop_isSome (doc : UTF8Reader) (sub : Nat → Option VRes) (start : Nat)
    (hsub_some : ∀ i, i ≤ doc.len → (sub i).isSome)
    (hsub_ok : ∀ i x w, sub i = some (.ok x, w) → 1 ≤ w ∧ i + w ≤ doc.len) :
    ∀ f st ptr, start + ptr ≤ doc.len → doc.len + 1 ≤ f + (start + ptr) →
    (objLoop doc sub start f st ptr).isSome := by
  have hlen : doc.len = doc.units.length := rfl
  intro f
  induction f with
  | zero => intro st ptr h1 h2; omega
  | succ f ih =>
    intro st ptr h1 h2
    rcases Nat.lt_or_ge (start + ptr) doc.units.length with hlt | hge
    case inr =>
      have heq : start + ptr = doc.units.length := by omega
      simp [objLoop, look1_oob_of_eq doc _ heq]
    case inl =>
    have hl := look1_ok_of_lt doc (start + ptr) hlt
    cases st
    case Begin =>
      simp only [objLoop, hl]
      split
      · exact ih _ _ (by omega) (by omega)
      · simp
    case PreKey =>
      simp only [objLoop, hl]
      split
      · simp
      · split
        · exact ih _ _ (by omega) (by omega)
        · cases hv : validate_string doc (start + ptr) with
          | none =>
            have hs := validate_string_isSome doc (start + ptr) (by omega)
            rw [hv] at hs
            simp at hs
          | some rs =>
            obtain ⟨r, step⟩ := rs
            cases r with
            | ok x =>
              have hww := validate_string_ok_width doc (start + ptr) x step hv
              simp only [hv]
              exact ih _ _ (by omega) (by omega)
            | error e => simp [hv]
    case Key =>
      simp only [objLoop, hl]
      split
      · exact ih _ _ (by omega) (by omega)
      · cases hv : validate_string doc (start + ptr) with
        | none =>
          have hs := validate_string_isSome doc (start + ptr) (by omega)
          rw [hv] at hs
          simp at hs
        | some rs =>
          obtain ⟨r, step⟩ := rs
          cases r with
          | ok x =>
            have hww := validate_string_ok_width doc (start + ptr) x step hv
            simp only [hv]
            exact ih _ _ (by omega) (by omega)
          | error e => simp [hv]
    case PreValue =>
      simp only [objLoop, hl]
      split
      · exact ih _ _ (by omega) (by omega)
      · split
        · exact ih _ _ (by omega) (by omega)
        · simp
    case Value =>
      simp only [objLoop, hl]
      split
      · exact ih _ _ (by omega) (by omega)
      · cases hv : sub (start + ptr) with
        | none =>
          have hs := hsub_some (start + ptr) (by omega)
          rw [hv] at hs
          simp at hs
        | some rs =>
          obtain ⟨r, step⟩ := rs
          cases r with
          | ok x =>
            have hww := hsub_ok (start + ptr) x step hv
            simp only [hv]
            exact ih _ _ (by omega) (by omega)
          | error e => simp [hv]
    case PostValue =>
      simp only [objLoop, hl]
      split
      · simp
      · split
        · exact ih _ _ (by omega) (by omega)
        · split
          · exact ih _ _ (by omega) (by omega)
          · simp

/-- On success the object loop consumed at least one unit beyond `ptr`
and stayed within the document (no dispatcher hypotheses needed: success
only arises at a closing brace the loop itself read). -/
theorem objLoop_ok_width (doc : UTF8Reader) (sub : Nat → Option VRes)
    (start : Nat) :
    ∀ f st ptr x w, objLoop doc sub start f st ptr = some (.ok x, w) →
    ptr < w ∧ start + w ≤ doc.len := by
  have hlen : doc.len = doc.units.length := rfl
  intro f
  induction f with
  | zero => intro st ptr x w h; simp [objLoop] at h
  | succ f ih =>
    intro st ptr x w h
    rcases Nat.lt_or_ge (start + ptr) doc.units.length with hlt | hge
    case inr =>
      rcases Nat.eq_or_lt_of_le hge with heq | hgt
      · simp [objLoop, look1_oob_of_eq doc _ heq.symm] at h
      · simp [objLoop, look1_underflow_of_gt doc _ hgt] at h
    case inl =>
    have hl := look1_ok_of_lt doc (start + ptr) hlt
    cases st
    all_goals simp only [objLoop, hl] at h
    all_goals revert h
    all_goals repeat' split
    all_goals intro h
    all_goals
      first
        | (have hw := ih _ _ _ _ h; omega)
        | (simp at h; done)
        | (simp only [Option.some.injEq, Prod.mk.injEq] at h;
           obtain ⟨h1, h2⟩ := h; omega)

/-- `objEntry` (the guarded `validate_object` entry) always returns when
started in bounds, given a well-behaved dispatcher. -/
theorem objEntry_isSome (doc : UTF8Reader) (sub : Nat → Option VRes)
    (start depth : Nat)
    (hsub_some : ∀ i, i ≤ doc.len → (sub i).isSome)
    (hsub_ok : ∀ i x w, sub i = some (.ok x, w) → 1 ≤ w ∧ i + w ≤ doc.len)
    (h : start ≤ doc.len) : (objEntry doc sub start depth).isSome := by
  unfold objEntry
  split
  · simp
  · exact objLoop_isSome doc sub start hsub_some hsub_ok (doc.len + 2) .Begin 0
      (by omega) (by omega)

/-- A successful `objEntry` consumed at least one unit, in bounds. -/
theorem objEntry_ok_width (doc : UTF8Reader) (sub : Nat → Option VRes)
    (start depth : Nat) (x : Unit) (w : Nat)
    (h : objEntry doc sub start depth = some (.ok x, w)) :
    1 ≤ w ∧ start + w ≤ doc.len := by
  unfold objEntry at h
  split at h
  · simp at h
  · have hw := objLoop_ok_width doc sub start (doc.len + 2) .Begin 0 x w h
    omega

/-- The array loop always terminates with an answer when started in
bounds, given a well-behaved dispatcher. -/
theorem arrLoop_isSome (doc : UTF8Reader) (sub : Nat → Option VRes) (start : Nat)
    (hsub_some : ∀ i, i ≤ doc.len → (sub i).isSome)
    (hsub_ok : ∀ i x w, sub i = some (.ok x, w) → 1 ≤ w ∧ i + w ≤ doc.len) :
    ∀ f st ptr, start + ptr ≤ doc.len → doc.len + 1 ≤ f + (start + ptr) →
    (arrLoop doc sub start f st ptr).isSome := by
  have hlen : doc.len = doc.units.length := rfl
  intro f
  induction f with
  | zero => intro st ptr h1 h2; omega
  | succ f ih =>
    intro st ptr h1 h2
    rcases Nat.lt_or_ge (start + ptr) doc.units.length with hlt | hge
    case inr =>
      have heq : start + ptr = doc.units.length := by omega
      simp [arrLoop, look1_oob_of_eq doc _ heq]
    case inl =>
    have hl := look1_ok_of_lt doc (start + ptr) hlt
    cases st
    case Begin =>
      simp only [arrLoop, hl]
      split
      · exact ih _ _ (by omega) (by omega)
      · simp
    case PreValue =>
      simp only [arrLoop, hl]
      split
      · simp
      · split
        · exact ih _ _ (by omega) (by omega)
        · cases hv : sub (start + ptr) with
          | none =>
            have hs := hsub_some (start + ptr) (by omega)
            rw [hv] at hs
            simp at hs
          | some rs =>
            obtain ⟨r, step⟩ := rs
            cases r with
            | ok x =>
              have hww := hsub_ok (start + ptr) x step hv
              simp only [hv]
              exact ih _ _ (by omega) (by omega)
            | error e => simp [hv]
    case Value =>
      simp only [arrLoop, hl]
      split
      · exact ih _ _ (by omega) (by omega)
      · cases hv : sub (start + ptr) with
        | none =>
          have hs := hsub_some (start + ptr) (by omega)
          rw [hv] at hs
          simp at hs
        | some rs =>
          obtain ⟨r, step⟩ := rs
          cases r with
          | ok x =>
            have hww := hsub_ok (start + ptr) x step hv
            simp only [hv]
            exact ih _ _ (by omega) (by omega)
          | error e => simp [hv]
    case PostValue =>
      simp only [arrLoop, hl]
      split
      · simp
      · split
        · exact ih _ _ (by omega) (by omega)
        · split
          · exact ih _ _ (by omega) (by omega)
          · simp

/-- On success the array loop consumed at least one unit beyond `ptr`,
in bounds. -/
theorem arrLoop_ok_width (doc : UTF8Reader) (sub : Nat → Option VRes)
    (start : Nat) :
    ∀ f st ptr x w, arrLoop doc sub start f st ptr = some (.ok x, w) →
    ptr < w ∧ start + w ≤ doc.len := by
  have hlen : doc.len = doc.units.length := rfl
  intro f
  induction f with
  | zero => intro st ptr x w h; simp [arrLoop] at h
  | succ f ih =>
    intro st ptr x w h
    rcases Nat.lt_or_ge (start + ptr) doc.units.length with hlt | hge
    case inr =>
      rcases Nat.eq_or_lt_of_le hge with heq | hgt
      · simp [arrLoop, look1_oob_of_eq doc _ heq.symm] at h
      · simp [arrLoop, look1_underflow_of_gt doc _ hgt] at h
    case inl =>
    have hl := look1_ok_of_lt doc (start + ptr) hlt
    cases st
    all_goals simp only [arrLoop, hl] at h
    all_goals revert h
    all_goals repeat' split
    all_goals intro h
    all_goals
      first
        | (have hw := ih _ _ _ _ h; omega)
        | (simp at h; done)
        | (simp only [Option.some.injEq, Prod.mk.injEq] at h;
           obtain ⟨h1, h2⟩ := h; omega)

/-- `arrEntry` always returns when started in bounds, given a well-behaved
dispatcher. -/
theorem arrEntry_isSome (doc : UTF8Reader) (sub : Nat → Option VRes)
    (start depth : Nat)
    (hsub_some : ∀ i, i ≤ doc.len → (sub i).isSome)
    (hsub_ok : ∀ i x w, sub i = some (.ok x, w) → 1 ≤ w ∧ i + w ≤ doc.len)
    (h : start ≤ doc.len) : (arrEntry doc sub start depth).isSome := by
  unfold arrEntry
  split
  · simp
  · exact arrLoop_isSome doc sub start hsub_some hsub_ok (doc.len + 2) .Begin 0
      (by omega) (by omega)

/-- A successful `arrEntry` consumed at least one unit, in bounds. -/
theorem arrEntry_ok_width (doc : UTF8Reader) (sub : Nat → Option VRes)
    (start depth : Nat) (x : Unit) (w : Nat)
    (h : arrEntry doc sub start depth = some (.ok x, w)) :
    1 ≤ w ∧ start + w ≤ doc.len := by
  unfold arrEntry at h
  split at h
  · simp at h
  · have hw := arrLoop_ok_width doc sub start (doc.len + 2) .Begin 0 x w h
    omega

/-! ## Value dispatch lemmas -/

/-- Underflow of width-one lookahead only happens past the end. -/
theorem look1_underflow_gt (d : UTF8Reader) (i : Nat)
    (h : d.look1 i = .underflow) : d.units.length < i := by
  by_cases hlt : i < d.units.length
  · rw [look1_ok_of_lt d i hlt] at h; cases h
  · by_cases he : i = d.units.length
    · rw [look1_oob_of_eq d i he] at h; cases h
    · omega

/-- A successful value production consumed at least one unit and stayed
within the document, whatever the gas. -/
theorem jsonValue_ok_width (doc : UTF8Reader) :
    ∀ g index depth x w, jsonValue doc g index depth = some (.ok x, w) →
    1 ≤ w ∧ index + w ≤ doc.len := by
  intro g
  induction g with
  | zero => intro index depth x w h; simp [jsonValue] at h
  | succ g ih =>
    intro index depth x w h
    cases hc : doc.look1 index with
    | underflow => simp [jsonValue, hc] at h
    | oob n => simp [jsonValue, hc] at h
    | ok u =>
      simp only [jsonValue, hc] at h
      revert h
      repeat' split
      all_goals intro h
      all_goals
        first
          | (exact objEntry_ok_width doc _ index _ x w h)
          | (exact arrEntry_ok_width doc _ index _ x w h)
          | (exact validate_number_ok_width doc index x w h)
          | (exact validate_string_ok_width doc index x w h)
          | (exact validate_true_ok_width doc index x w h)
          | (exact validate_false_ok_width doc index x w h)
          | (exact validate_null_ok_width doc index x w h)
          | (simp at h; done)

/-- The value dispatcher always answers when the index is in bounds, the
depth is within the guard, and the gas exceeds the depth budget left
(which the guard maintains: one gas per nesting level). -/
theorem jsonValue_isSome (doc : UTF8Reader) :
    ∀ g index depth, index ≤ doc.len → depth ≤ MAX_DEPTH →
    MAX_DEPTH < g + depth → (jsonValue doc g index depth).isSome := by
  intro g
  induction g with
  | zero =>
    intro index depth h1 h2 h3
    exfalso
    simp [MAX_DEPTH] at h2 h3
    omega
  | succ g ih =>
    intro index depth h1 h2 h3
    cases hc : doc.look1 index with
    | underflow =>
      exfalso
      have := look1_underflow_gt doc index hc
      have hlen : doc.len = doc.units.length := rfl
      omega
    | oob n => simp [jsonValue, hc]
    | ok u =>
      simp only [jsonValue, hc]
      by_cases h4 : u = g1 '\x7b'
      · rw [if_pos h4]
        by_cases hd : depth + 1 > MAX_DEPTH
        · simp [objEntry, hd]
        · exact objEntry_isSome doc _ index (depth + 1)
            (fun i hi => ih i (depth + 1) hi (by omega) (by omega))
            (fun i x w hw => jsonValue_ok_width doc g i (depth + 1) x w hw)
            h1
      · rw [if_neg h4]
        by_cases h5 : u = g1 '['
        · rw [if_pos h5]
          by_cases hd : depth + 1 > MAX_DEPTH
          · simp [arrEntry, hd]
          · exact arrEntry_isSome doc _ index (depth + 1)
              (fun i hi => ih i (depth + 1) hi (by omega) (by omega))
              (fun i x w hw => jsonValue_ok_width doc g i (depth + 1) x w hw)
              h1
        · rw [if_neg h5]
          by_cases h6 : is_number_leading u = true
          · rw [if_pos h6]
            exact validate_number_isSome doc index h1
          · rw [if_neg h6]
            by_cases h7 : u = g1 '"'
            · rw [if_pos h7]
              exact validate_string_isSome doc index h1
            · rw [if_neg h7]
              by_cases h8 : u = g1 't'
              · rw [if_pos h8]
                exact validate_true_isSome doc index h1
              · rw [if_neg h8]
                by_cases h9 : u = g1 'f'
                · rw [if_pos h9]
                  exact validate_false_isSome doc index h1
                · rw [if_neg h9]
                  by_cases h10 : u = g1 'n'
                  · rw [if_pos h10]
                    exact validate_null_isSome doc index h1
                  · rw [if_neg h10]
                    simp

/-- `validate_json_value` at its canonical gas always answers for depths
within the guard. -/
theorem validate_json_value_isSome (doc : UTF8Reader) (index depth : Nat)
    (h1 : index ≤ doc.len) (h2 : depth ≤ MAX_DEPTH) :
    (validate_json_value doc index depth).isSome :=
  jsonValue_isSome doc (102 - depth) index depth h1 h2
    (by simp [MAX_DEPTH] at h2 ⊢; omega)

/-- A successful `validate_json_value` consumed at least one unit, in
bounds. -/
theorem validate_json_value_ok_width (doc : UTF8Reader) (index depth : Nat)
    (x : Unit) (w : Nat)
    (h : validate_json_value doc index depth = some (.ok x, w)) :
    1 ≤ w ∧ index + w ≤ doc.len :=
  jsonValue_ok_width doc (102 - depth) index depth x w h

/-! ## Driver loop lemmas -/

/-- The top-level driver loop always answers when started in bounds with
fuel covering the remaining units. -/
theorem vLoop_isSome (doc : UTF8Reader) :
    ∀ f st ptr, ptr ≤ doc.len → doc.len + 1 ≤ f + ptr →
    (vLoop doc f st ptr).isSome := by
  have hlen : doc.len = doc.units.length := rfl
  intro f
  induction f with
  | zero => intro st ptr h1 h2; omega
  | succ f ih =>
    intro st ptr h1 h2
    rcases Nat.lt_or_ge ptr doc.units.length with hlt | hge
    case inr =>
      have heq : ptr = doc.units.length := by omega
      cases st <;> simp [vLoop, look1_oob_of_eq doc _ heq]
    case inl =>
    have hl := look1_ok_of_lt doc ptr hlt
    cases st
    case PreDocument =>
      simp only [vLoop, hl]
      split
      · exact ih _ _ (by omega) (by omega)
      · cases hv : validate_json_value doc ptr 0 with
        | none =>
          have hs := validate_json_value_isSome doc ptr 0 (by omega)
            (by simp [MAX_DEPTH])
          rw [hv] at hs
          simp at hs
        | some rs =>
          obtain ⟨r, step⟩ := rs
          cases r with
          | ok x =>
            have hww := validate_json_value_ok_width doc ptr 0 x step hv
            simp only [hv]
            exact ih _ _ (by omega) (by omega)
          | error e => simp [hv]
    case PostDocument =>
      simp only [vLoop, hl]
      split
      · exact ih _ _ (by omega) (by omega)
      · simp

/-! ## Claim C10: totality -/

/-- C10: `validate` is total.  With the concrete fuel and gas `validate`
supplies, every loop is proved to return (each iteration either returns or
strictly advances), and every internal width-one or wide lookahead stays at
an index at most the unit count: an out-of-range lookahead would produce
the `underflow` outcome, which the machines propagate as `none`, so
`isSome` simultaneously certifies termination and in-bounds access.  An
`Accepted` or `Rejected` outcome is therefore always produced. -/
theorem C10_validate_total (doc : UTF8Reader) : (validate doc).isSome := by
  unfold validate
  split
  · simp
  · exact vLoop_isSome doc (doc.len + 2) .PreDocument 0 (by omega) (by omega)

/-! ## Claim C5: the empty document -/

/-- C5, counterexample: the reason string the code produces for the empty
document is `JSON document can not be empty`, not the claim's
`document can not be empty`. -/
theorem C5_empty_message_counterexample :
    validate ⟨[]⟩ = some (.error (verror 0 "JSON document can not be empty")) ∧
    "JSON document can not be empty" ≠ "document can not be empty" := by
  constructor
  · decide
  · decide

/-- C5, amended: `validate` on the empty document returns Rejected at
position 0 with the message `JSON document can not be empty` (the check is
the very first thing `validate` does; with zero units there is no unit to
inspect). -/
theorem C5_empty_document :
    validate ⟨[]⟩ = some (.error (verror 0 "JSON document can not be empty")) := by
  decide

/-! ## Claim C4: position of the malformed literal -/

/-- C4, counterexample: on `{"a": tru}` the reported position is unit
index 10 (rendered `@ 1:11`), not the claimed index 6 where the `tru`
segment starts: the literal matcher consumed its full 4-unit lookahead
window even on mismatch. -/
theorem C4_tru_position_counterexample :
    validate (asciiDoc "\x7b\"a\": tru\x7d") =
      some (.error (verror 10
        "It seems to be the plain value \"true\", but got \"tru\x7d\"")) ∧
    verror 10 "It seems to be the plain value \"true\", but got \"tru\x7d\"" ≠
      verror 6 "It seems to be the plain value \"true\", but got \"tru\x7d\"" := by
  constructor
  · decide
  · decide

/-- C4, amended: `validate ("\x7b\"a\": tru\x7d")` returns Rejected at
unit index 6 + 4 = 10: the start of the `tru` segment plus the full width
of the 4-unit lookahead the `true` matcher reports even on mismatch. -/
theorem C4_tru_position :
    validate (asciiDoc "\x7b\"a\": tru\x7d") =
      some (.error (verror (6 + 4)
        "It seems to be the plain value \"true\", but got \"tru\x7d\"")) := by
  decide

/-! ## Claim C6: end of input inside an object -/

/-- C6: the object production does return the reader's shortfall as its
width at end of input, and `validate` reports that position, but the
message is the number machine's `Incomplete number value` (a copy-paste
in `validate_object`'s out-of-bound arm), not an incomplete-object
message. -/
theorem C6_incomplete_object_message :
    validate_object (asciiDoc "\x7b") 0 1 =
      some (.error "Incomplete number value", 0) ∧
    validate (asciiDoc "\x7b") =
      some (.error (verror 0 "Incomplete number value")) := by
  constructor
  · decide
  · decide

/-! ## Claim C1: grammar fidelity -/

/-- C1: the text `12` followed by U+0301 (combining acute) is not a JSON
document under RFC 8259 — U+0301 cannot appear outside a string — yet
`validate` Accepts it.  The reader merges `2` and the combining mark into
one atomic unit, and the number machine classifies a unit by its first
code point only, so the mark rides along inside the integer part. -/
theorem C1_combining_mark_accepted :
    validate ⟨[⟨'1', ""⟩, ⟨'2', "\u0301"⟩]⟩ = some (.ok ()) ∧
    sliceStr [⟨'1', ""⟩, ⟨'2', "\u0301"⟩] = "12\u0301" := by
  constructor
  · decide
  · decide

/-! ## Claim C7: the depth guard -/

set_option maxRecDepth 20000 in
/-- C7: dispatching into an object or array enters the production at
depth + 1; any object or array production entered at depth above 100
fails immediately with the dedicated depth error and zero width, before
any recursive descent (the result is fixed whatever the document); and
101 consecutive `[` units are Rejected with that error. -/
theorem C7_depth_guard :
    (∀ (doc : UTF8Reader) (start depth : Nat), depth > MAX_DEPTH →
      validate_object doc start depth =
        some (.error "Nested JSON value is too deep", 0) ∧
      validate_array doc start depth =
        some (.error "Nested JSON value is too deep", 0)) ∧
    (∀ (doc : UTF8Reader) (index depth : Nat) (u : Grapheme),
      depth ≤ 101 → doc.look1 index = .ok u →
      (u = g1 '\x7b' →
        validate_json_value doc index depth =
          validate_object doc index (depth + 1)) ∧
      (u = g1 '[' →
        validate_json_value doc index depth =
          validate_array doc index (depth + 1))) ∧
    validate ⟨List.replicate 101 (g1 '[')⟩ =
      some (.error (verror 100 "Nested JSON value is too deep")) := by
  refine ⟨?_, ?_, ?_⟩
  · intro doc start depth hd
    constructor
    · simp [validate_object, objEntry, hd]
    · simp [validate_array, arrEntry, hd]
  · intro doc index depth u hdep hl
    have hg : 102 - depth = (101 - depth) + 1 := by omega
    have hg2 : 102 - (depth + 1) = 101 - depth := by omega
    constructor
    · intro hu
      rw [validate_json_value, hg]
      simp only [jsonValue, hl]
      rw [if_pos hu, validate_object, hg2]
    · intro hu
      have hno : ¬ (u = g1 '\x7b') := by
        rintro rfl
        cases hu
      rw [validate_json_value, hg]
      simp only [jsonValue, hl]
      rw [if_neg hno, if_pos hu, validate_array, hg2]
  · decide

/-- Witness for `C7_depth_guard`: the guard at depth 101 on a concrete
document, and dispatch of a concrete `[` unit at depth 0. -/
theorem C7_depth_guard_witness :
    (validate_object (asciiDoc "[") 0 101 =
      some (.error "Nested JSON value is too deep", 0) ∧
     validate_array (asciiDoc "[") 0 101 =
      some (.error "Nested JSON value is too deep", 0)) ∧
    validate_json_value (asciiDoc "[") 0 0 = validate_array (asciiDoc "[") 0 1 :=
  ⟨C7_depth_guard.1 (asciiDoc "[") 0 101 (by decide),
   (C7_depth_guard.2.1 (asciiDoc "[") 0 0 (g1 '[') (by decide) (by decide)).2 rfl⟩

/-! ## Claim C3: outcome-and-width pairs and error positions -/

/-- C3, counterexample: on the unterminated string `"ab` the string
production scans all 3 units of the document before hitting end of input,
yet returns width 0 — the reader's shortfall at the lookahead index, not
the number of units it actually consumed — so the position `validate`
reports is 0, not the sum (3) of consumed widths down to the point of
failure. -/
theorem C3_incomplete_width_counterexample :
    validate_string (asciiDoc "\"ab") 0 =
      some (.error "Incomplete string value", 0) ∧
    validate (asciiDoc "\"ab") =
      some (.error (verror 0 "Incomplete string value")) ∧
    (asciiDoc "\"ab").len = 3 := by
  refine ⟨?_, ?_, ?_⟩
  · decide
  · decide
  · decide

/-- C3, amended: every production returns an outcome paired with a width,
including on failure (the type `VRes` of every production here).  For a
failure inside the input the width is additive along the recursive call
chain — the driver reports a failing value's position as the units it had
already consumed plus the failing production's returned width, and the
object and array productions likewise return their own consumed offset
plus the failing nested production's (or object key's) width — while at
end of input a production returns the reader's shortfall count as its
width instead of the units it consumed. -/
theorem C3_error_position_additive :
    (∀ (doc : UTF8Reader) (f ptr : Nat) (u : Grapheme) (e : String) (w : Nat),
      doc.look1 ptr = .ok u → is_insignificant_whitespace u = false →
      validate_json_value doc ptr 0 = some (.error e, w) →
      vLoop doc (f + 1) .PreDocument ptr =
        some (.error (verror (ptr + w) e))) ∧
    (∀ (doc : UTF8Reader) (sub : Nat → Option VRes) (start f ptr : Nat)
      (u : Grapheme) (e : String) (w : Nat),
      doc.look1 (start + ptr) = .ok u →
      is_insignificant_whitespace u = false →
      sub (start + ptr) = some (.error e, w) →
      objLoop doc sub start (f + 1) .Value ptr = some (.error e, ptr + w)) ∧
    (∀ (doc : UTF8Reader) (sub : Nat → Option VRes) (start f ptr : Nat)
      (u : Grapheme) (e : String) (w : Nat),
      doc.look1 (start + ptr) = .ok u →
      is_insignificant_whitespace u = false →
      sub (start + ptr) = some (.error e, w) →
      arrLoop doc sub start (f + 1) .Value ptr = some (.error e, ptr + w)) ∧
    (∀ (doc : UTF8Reader) (sub : Nat → Option VRes) (start f ptr : Nat)
      (u : Grapheme) (e : String) (w : Nat),
      doc.look1 (start + ptr) = .ok u → ¬ (u = g1 ']') →
      is_insignificant_whitespace u = false →
      sub (start + ptr) = some (.error e, w) →
      arrLoop doc sub start (f + 1) .PreValue ptr = some (.error e, ptr + w)) ∧
    (∀ (doc : UTF8Reader) (sub : Nat → Option VRes) (start f ptr : Nat)
      (u : Grapheme) (e : String) (w : Nat),
      doc.look1 (start + ptr) = .ok u → ¬ (u = g1 '\x7d') →
      is_insignificant_whitespace u = false →
      validate_string doc (start + ptr) = some (.error e, w) →
      objLoop doc sub start (f + 1) .PreKey ptr =
        some (.error "Object key should be a valid string", ptr + w)) ∧
    (∀ (doc : UTF8Reader) (start f : Nat) (st : SState) (ptr ulen n : Nat),
      doc.look1 (start + ptr) = .oob n →
      strLoop doc start (f + 1) st ptr ulen =
        some (.error "Incomplete string value", n)) := by
  refine ⟨?_, ?_, ?_, ?_, ?_, ?_⟩
  · intro doc f ptr u e w hl hws hv
    simp [vLoop, hl, hws, hv]
  · intro doc sub start f ptr u e w hl hws hv
    simp [objLoop, hl, hws, hv]
  · intro doc sub start f ptr u e w hl hws hv
    simp [arrLoop, hl, hws, hv]
  · intro doc sub start f ptr u e w hl hbr hws hv
    simp [arrLoop, hl, hbr, hws, hv]
  · intro doc sub start f ptr u e w hl hbr hws hv
    simp [objLoop, hl, hbr, hws, hv]
  · intro doc start f st ptr ulen n hoob
    cases st <;> simp [strLoop, hoob]

/-- Witness for `C3_error_position_additive`: on the three-unit document
`tru` the literal matcher fails with width 3 (the reader's shortfall), and
the driver reports position 0 + 3. -/
theorem C3_error_position_additive_witness :
    vLoop (asciiDoc "tru") (3 + 1) .PreDocument 0 =
      some (.error (verror (0 + 3) "Incomplete literal name \"true\"")) :=
  C3_error_position_additive.1 (asciiDoc "tru") 3 0 (g1 't')
    "Incomplete literal name \"true\"" 3 (by decide) (by decide) (by decide)

/-! ## Claim C8: the number grammar -/

/-- A number-closing unit is never a digit, a decimal point, or an
exponent marker. -/
theorem end_of_number_facts (u : Grapheme) (h : is_end_of_number u = true) :
    is_valid_demical_number u false = false ∧ ¬ (u = g1 '.') ∧
    ¬ (u = g1 'e' ∨ u = g1 'E') := by
  by_cases hd : (u = g1 ',' ∨ u = g1 '\x7d' ∨ u = g1 ']')
  · rcases hd with rfl | rfl | rfl <;> exact ⟨by decide, by decide, by decide⟩
  · have h' : is_insignificant_whitespace u = true := by
      simpa [is_end_of_number, hd] using h
    have hws : u = g1 '\t' ∨ u = g1 '\n' ∨ u = g1 '\r' ∨ u = g1 ' ' := by
      simpa [is_insignificant_whitespace] using h'
    rcases hws with rfl | rfl | rfl | rfl <;>
      exact ⟨by decide, by decide, by decide⟩

/-- The structural delimiters and insignificant whitespace are exactly
what closes a number. -/
theorem end_of_number_of_delims (u : Grapheme)
    (h : u = g1 ',' ∨ u = g1 '\x7d' ∨ u = g1 ']' ∨
      is_insignificant_whitespace u = true) :
    is_end_of_number u = true := by
  rcases h with rfl | rfl | rfl | hws
  · decide
  · decide
  · decide
  · by_cases hd : (u = g1 ',' ∨ u = g1 '\x7d' ∨ u = g1 ']') <;>
      simp [is_end_of_number, hd, hws]

/-- A unit whose first code point is a decimal digit is not a decimal
point, an exponent marker, or a sign. -/
theorem valid_number_unit_ne (u : Grapheme) (b : Bool)
    (h : is_valid_demical_number u b = true) :
    ¬ (u = g1 '.') ∧ ¬ (u = g1 'e' ∨ u = g1 'E') ∧
    ¬ (u = g1 '+' ∨ u = g1 '-') := by
  refine ⟨?_, ?_, ?_⟩
  · rintro rfl
    cases b
    · revert h; decide
    · revert h; decide
  · rintro (rfl | rfl)
    · cases b
      · revert h; decide
      · revert h; decide
    · cases b
      · revert h; decide
      · revert h; decide
  · rintro (rfl | rfl)
    · cases b
      · revert h; decide
      · revert h; decide
    · cases b
      · revert h; decide
      · revert h; decide

/-- A unit that is neither a structural delimiter nor insignificant
whitespace does not close a number. -/
theorem not_end_of_number_of_not_delims (u : Grapheme)
    (h : ¬ (u = g1 ',' ∨ u = g1 '\x7d' ∨ u = g1 ']' ∨
      is_insignificant_whitespace u = true)) :
    is_end_of_number u = false := by
  by_cases hd : (u = g1 ',' ∨ u = g1 '\x7d' ∨ u = g1 ']')
  · exfalso
    rcases hd with h1 | h1 | h1
    · exact h (Or.inl h1)
    · exact h (Or.inr (Or.inl h1))
    · exact h (Or.inr (Or.inr (Or.inl h1)))
  · rw [is_end_of_number, if_neg hd]
    rcases Bool.eq_false_or_eq_true (is_insignificant_whitespace u) with hw | hw
    · exact absurd (Or.inr (Or.inr (Or.inr hw))) h
    · exact hw

/-- C8: the number machine enforces the RFC 8259 shape, state by state
and unit class by unit class.  A single leading minus moves `Begin` to
`LeadingMinus`, and a second minus there is an error; a digit right after
a bare leading zero is `Leading zeros are not allowed` (so `validate "01"`
is Rejected at unit index 1) unless the unit after the zero is a decimal
point or exponent marker; every transition of `Begin`, `LeadingMinus`,
`LeadingZero`, `Integer`, `PendingFraction`, `Fraction`, `ExponentSign`,
`PendingExponent` and `Exponent` on a digit, decimal point, exponent
marker or sign is pinned down, as is the error taken on any other
non-closing unit; a number is closed exactly at a comma, closing brace,
closing bracket or insignificant whitespace — at any other unit a
terminal state never returns success at the current offset — or at end
of input in a terminal state (`LeadingZero`, `Integer`, `Fraction`,
`Exponent`); end of input in any other state is `Incomplete number
value`. -/
theorem C8_number_grammar :
    (∀ (doc : UTF8Reader) (start f ptr : Nat) (u : Grapheme),
      doc.look1 (start + ptr) = .ok u →
      (is_valid_demical_number u false = true →
        numLoop doc start (f + 1) .LeadingZero ptr =
          some (.error "Leading zeros are not allowed", ptr)) ∧
      (u = g1 '.' →
        numLoop doc start (f + 1) .LeadingZero ptr =
          numLoop doc start f .PendingFraction (ptr + 1)) ∧
      ((u = g1 'e' ∨ u = g1 'E') →
        numLoop doc start (f + 1) .LeadingZero ptr =
          numLoop doc start f .ExponentSign (ptr + 1)) ∧
      (u = g1 '-' →
        numLoop doc start (f + 1) .Begin ptr =
          numLoop doc start f .LeadingMinus (ptr + 1)) ∧
      (u = g1 '-' →
        numLoop doc start (f + 1) .LeadingMinus ptr =
          some (.error ("Invalid character after leading minus: "
            ++ rust_debug_str u.str), ptr)) ∧
      (∀ st : NState,
        (st = .LeadingZero ∨ st = .Integer ∨ st = .Fraction ∨ st = .Exponent) →
        (u = g1 ',' ∨ u = g1 '\x7d' ∨ u = g1 ']' ∨
          is_insignificant_whitespace u = true) →
        numLoop doc start (f + 1) st ptr = some (.ok (), ptr)) ∧
      (u = g1 '0' →
        numLoop doc start (f + 1) .Begin ptr =
          numLoop doc start f .LeadingZero (ptr + 1)) ∧
      (is_valid_demical_number u true = true →
        numLoop doc start (f + 1) .Begin ptr =
          numLoop doc start f .Integer (ptr + 1)) ∧
      (is_valid_demical_number u true = false → ¬ (u = g1 '-') →
        ¬ (u = g1 '0') →
        numLoop doc start (f + 1) .Begin ptr =
          some (.error ("Invalid number leading: "
            ++ rust_debug_str u.str), ptr)) ∧
      (u = g1 '0' →
        numLoop doc start (f + 1) .LeadingMinus ptr =
          numLoop doc start f .LeadingZero (ptr + 1)) ∧
      (is_valid_demical_number u true = true →
        numLoop doc start (f + 1) .LeadingMinus ptr =
          numLoop doc start f .Integer (ptr + 1)) ∧
      (is_valid_demical_number u true = false → ¬ (u = g1 '0') →
        numLoop doc start (f + 1) .LeadingMinus ptr =
          some (.error ("Invalid character after leading minus: "
            ++ rust_debug_str u.str), ptr)) ∧
      (¬ (u = g1 '.') → ¬ (u = g1 'e' ∨ u = g1 'E') →
        is_valid_demical_number u false = false →
        ¬ (u = g1 ',' ∨ u = g1 '\x7d' ∨ u = g1 ']' ∨
          is_insignificant_whitespace u = true) →
        numLoop doc start (f + 1) .LeadingZero ptr =
          some (.error ("Invalid character after leading zero: "
            ++ rust_debug_str u.str), ptr)) ∧
      (u = g1 '.' →
        numLoop doc start (f + 1) .Integer ptr =
          numLoop doc start f .PendingFraction (ptr + 1)) ∧
      ((u = g1 'e' ∨ u = g1 'E') →
        numLoop doc start (f + 1) .Integer ptr =
          numLoop doc start f .ExponentSign (ptr + 1)) ∧
      (is_valid_demical_number u false = true →
        numLoop doc start (f + 1) .Integer ptr =
          numLoop doc start f .Integer (ptr + 1)) ∧
      (¬ (u = g1 '.') → ¬ (u = g1 'e' ∨ u = g1 'E') →
        is_valid_demical_number u false = false →
        ¬ (u = g1 ',' ∨ u = g1 '\x7d' ∨ u = g1 ']' ∨
          is_insignificant_whitespace u = true) →
        numLoop doc start (f + 1) .Integer ptr =
          some (.error ("Invalid character in interger part: "
            ++ rust_debug_str u.str), ptr)) ∧
      (is_valid_demical_number u false = true →
        numLoop doc start (f + 1) .PendingFraction ptr =
          numLoop doc start f .Fraction (ptr + 1)) ∧
      (is_valid_demical_number u false = false →
        numLoop doc start (f + 1) .PendingFraction ptr =
          some (.error ("Invalid character after demical point: "
            ++ rust_debug_str u.str), ptr)) ∧
      ((u = g1 'e' ∨ u = g1 'E') →
        numLoop doc start (f + 1) .Fraction ptr =
          numLoop doc start f .ExponentSign (ptr + 1)) ∧
      (is_valid_demical_number u false = true →
        numLoop doc start (f + 1) .Fraction ptr =
          numLoop doc start f .Fraction (ptr + 1)) ∧
      (¬ (u = g1 'e' ∨ u = g1 'E') →
        is_valid_demical_number u false = false →
        ¬ (u = g1 ',' ∨ u = g1 '\x7d' ∨ u = g1 ']' ∨
          is_insignificant_whitespace u = true) →
        numLoop doc start (f + 1) .Fraction ptr =
          some (.error ("Invalid character in fraction part: "
            ++ rust_debug_str u.str), ptr)) ∧
      ((u = g1 '+' ∨ u = g1 '-') →
        numLoop doc start (f + 1) .ExponentSign ptr =
          numLoop doc start f .PendingExponent (ptr + 1)) ∧
      (is_valid_demical_number u false = true →
        numLoop doc start (f + 1) .ExponentSign ptr =
          numLoop doc start f .Exponent (ptr + 1)) ∧
      (¬ (u = g1 '+' ∨ u = g1 '-') →
        is_valid_demical_number u false = false →
        numLoop doc start (f + 1) .ExponentSign ptr =
          some (.error ("Invalid character in exponent part: "
            ++ rust_debug_str u.str), ptr)) ∧
      (is_valid_demical_number u false = true →
        numLoop doc start (f + 1) .PendingExponent ptr =
          numLoop doc start f .Exponent (ptr + 1)) ∧
      (is_valid_demical_number u false = false →
        numLoop doc start (f + 1) .PendingExponent ptr =
          some (.error ("Invalid character in exponent part: "
            ++ rust_debug_str u.str), ptr)) ∧
      (is_valid_demical_number u false = true →
        numLoop doc start (f + 1) .Exponent ptr =
          numLoop doc start f .Exponent (ptr + 1)) ∧
      (is_valid_demical_number u false = false →
        ¬ (u = g1 ',' ∨ u = g1 '\x7d' ∨ u = g1 ']' ∨
          is_insignificant_whitespace u = true) →
        numLoop doc start (f + 1) .Exponent ptr =
          some (.error ("Invalid character in exponent part: "
            ++ rust_debug_str u.str), ptr)) ∧
      (∀ st : NState,
        (st = .LeadingZero ∨ st = .Integer ∨ st = .Fraction ∨ st = .Exponent) →
        ¬ (u = g1 ',' ∨ u = g1 '\x7d' ∨ u = g1 ']' ∨
          is_insignificant_whitespace u = true) →
        numLoop doc start (f + 1) st ptr ≠ some (.ok (), ptr))) ∧
    (∀ (doc : UTF8Reader) (start f ptr n : Nat),
      doc.look1 (start + ptr) = .oob n →
      (∀ st : NState,
        (st = .LeadingZero ∨ st = .Integer ∨ st = .Fraction ∨ st = .Exponent) →
        numLoop doc start (f + 1) st ptr = some (.ok (), ptr)) ∧
      (∀ st : NState,
        (st = .Begin ∨ st = .LeadingMinus ∨ st = .PendingFraction ∨
          st = .ExponentSign ∨ st = .PendingExponent) →
        numLoop doc start (f + 1) st ptr =
          some (.error "Incomplete number value", n))) ∧
    validate (asciiDoc "01") =
      some (.error (verror 1 "Leading zeros are not allowed")) := by
  refine ⟨?_, ?_, ?_⟩
  · intro doc start f ptr u hl
    refine ⟨?_, ?_, ?_, ?_, ?_, ?_, ?_, ?_, ?_, ?_, ?_, ?_, ?_, ?_, ?_, ?_,
      ?_, ?_, ?_, ?_, ?_, ?_, ?_, ?_, ?_, ?_, ?_, ?_, ?_, ?_⟩
    · intro hz
      have hdot : ¬ (u = g1 '.') := by
        rintro rfl; revert hz; decide
      have hee : ¬ (u = g1 'e' ∨ u = g1 'E') := by
        rintro (rfl | rfl)
        · revert hz; decide
        · revert hz; decide
      simp only [numLoop, hl]
      rw [if_neg hdot, if_neg hee, if_pos hz]
    · rintro rfl
      simp only [numLoop, hl]
      simp
    · rintro (rfl | rfl)
      · simp only [numLoop, hl]
        rw [if_neg (by decide), if_pos (by decide)]
      · simp only [numLoop, hl]
        rw [if_neg (by decide), if_pos (by decide)]
    · rintro rfl
      simp only [numLoop, hl]
      simp
    · rintro rfl
      simp only [numLoop, hl]
      rw [if_neg (by decide), if_neg (by decide)]
    · intro st hst hdel
      have hend := end_of_number_of_delims u hdel
      obtain ⟨hvd, hdot, hee⟩ := end_of_number_facts u hend
      rcases hst with rfl | rfl | rfl | rfl
      · simp only [numLoop, hl]
        rw [if_neg hdot, if_neg hee, if_neg (by simp [hvd]), if_pos hend]
      · simp only [numLoop, hl]
        rw [if_neg hdot, if_neg hee, if_neg (by simp [hvd]), if_pos hend]
      · simp only [numLoop, hl]
        rw [if_neg hee, if_neg (by simp [hvd]), if_pos hend]
      · simp only [numLoop, hl]
        rw [if_neg (by simp [hvd]), if_pos hend]
    · rintro rfl
      simp only [numLoop, hl]
      rw [if_neg (by decide)]
      simp
    · intro h
      have hne := valid_number_unit_ne u true h
      have hm : ¬ (u = g1 '-') := fun hh => hne.2.2 (Or.inr hh)
      have hz : ¬ (u = g1 '0') := by rintro rfl; revert h; decide
      simp only [numLoop, hl]
      rw [if_neg hm, if_neg hz, if_pos h]
    · intro hv hm hz
      simp only [numLoop, hl]
      rw [if_neg hm, if_neg hz, if_neg (by simp [hv])]
    · rintro rfl
      simp only [numLoop, hl]
      simp
    · intro h
      have hz : ¬ (u = g1 '0') := by rintro rfl; revert h; decide
      simp only [numLoop, hl]
      rw [if_neg hz, if_pos h]
    · intro hv hz
      simp only [numLoop, hl]
      rw [if_neg hz, if_neg (by simp [hv])]
    · intro hdot hee hv hnd
      have hend := not_end_of_number_of_not_delims u hnd
      simp only [numLoop, hl]
      rw [if_neg hdot, if_neg hee, if_neg (by simp [hv]),
        if_neg (by simp [hend])]
    · rintro rfl
      simp only [numLoop, hl]
      simp
    · rintro (rfl | rfl)
      · simp only [numLoop, hl]
        rw [if_neg (by decide), if_pos (by decide)]
      · simp only [numLoop, hl]
        rw [if_neg (by decide), if_pos (by decide)]
    · intro h
      have hne := valid_number_unit_ne u false h
      simp only [numLoop, hl]
      rw [if_neg hne.1, if_neg hne.2.1, if_pos h]
    · intro hdot hee hv hnd
      have hend := not_end_of_number_of_not_delims u hnd
      simp only [numLoop, hl]
      rw [if_neg hdot, if_neg hee, if_neg (by simp [hv]),
        if_neg (by simp [hend])]
    · intro h
      simp only [numLoop, hl]
      rw [if_pos h]
    · intro hv
      simp only [numLoop, hl]
      rw [if_neg (by simp [hv])]
    · rintro (rfl | rfl)
      · simp only [numLoop, hl]
        rw [if_pos (by decide)]
      · simp only [numLoop, hl]
        rw [if_pos (by decide)]
    · intro h
      have hne := valid_number_unit_ne u false h
      simp only [numLoop, hl]
      rw [if_neg hne.2.1, if_pos h]
    · intro hee hv hnd
      have hend := not_end_of_number_of_not_delims u hnd
      simp only [numLoop, hl]
      rw [if_neg hee, if_neg (by simp [hv]), if_neg (by simp [hend])]
    · intro h
      simp only [numLoop, hl]
      rw [if_pos h]
    · intro h
      have hne := valid_number_unit_ne u false h
      simp only [numLoop, hl]
      rw [if_neg hne.2.2, if_pos h]
    · intro hns hv
      simp only [numLoop, hl]
      rw [if_neg hns, if_neg (by simp [hv])]
    · intro h
      simp only [numLoop, hl]
      rw [if_pos h]
    · intro hv
      simp only [numLoop, hl]
      rw [if_neg (by simp [hv])]
    · intro h
      simp only [numLoop, hl]
      rw [if_pos h]
    · intro hv hnd
      have hend := not_end_of_number_of_not_delims u hnd
      simp only [numLoop, hl]
      rw [if_neg (by simp [hv]), if_neg (by simp [hend])]
    · intro st hst hnd hclose
      have hend := not_end_of_number_of_not_delims u hnd
      rcases hst with rfl | rfl | rfl | rfl
      all_goals simp only [numLoop, hl] at hclose
      all_goals revert hclose
      all_goals repeat' split
      all_goals intro hclose
      all_goals
        first
          | (have hw := numLoop_ok_width doc start _ _ _ _ _ hclose; omega)
          | (simp at hclose; done)
          | (rename_i hE; rw [hend] at hE; simp at hE)
  · intro doc start f ptr n hoob
    constructor
    · intro st hst
      rcases hst with rfl | rfl | rfl | rfl <;> simp [numLoop, hoob]
    · intro st hst
      rcases hst with rfl | rfl | rfl | rfl | rfl <;> simp [numLoop, hoob]
  · decide

/-- Witness for `C8_number_grammar`: the machine on `01` after consuming
the zero, number closure at a concrete comma, and refusal to close at a
concrete non-delimiter. -/
theorem C8_number_grammar_witness :
    numLoop (asciiDoc "01") 0 (5 + 1) .LeadingZero 1 =
      some (.error "Leading zeros are not allowed", 1) ∧
    numLoop (asciiDoc "1,") 0 (5 + 1) .Integer 1 = some (.ok (), 1) ∧
    numLoop (asciiDoc "1x") 0 (5 + 1) .Integer 1 ≠ some (.ok (), 1) := by
  refine ⟨?_, ?_, ?_⟩
  · exact (C8_number_grammar.1 (asciiDoc "01") 0 5 1 (g1 '1')
      (by decide)).1 (by decide)
  · obtain ⟨c1, c2, c3, c4, c5, c6, crest⟩ :=
      C8_number_grammar.1 (asciiDoc "1,") 0 5 1 (g1 ',') (by decide)
    exact c6 .Integer (by simp) (by decide)
  · obtain ⟨c1, c2, c3, c4, c5, c6, c7, c8, c9, c10, c11, c12, c13, c14, c15,
      c16, c17, c18, c19, c20, c21, c22, c23, c24, c25, c26, c27, c28, c29,
      c30⟩ := C8_number_grammar.1 (asciiDoc "1x") 0 5 1 (g1 'x') (by decide)
    exact c30 .Integer (by simp) (by decide)

/-! ## Claim C9: string escapes -/

/-- C9: after a backslash the string machine accepts exactly the eight
single-character escapes (returning to plain text) or `u`, which then
requires exactly 4 case-insensitive hexadecimal digits before returning
to plain text, and rejects any other escaped unit; a raw unit whose code
point is at most U+001F inside plain text is rejected as requiring
escaping; and `"ab\u00"` is Rejected because the closing quote arrives
where a hex digit is required, cutting the escape short of 4 digits. -/
theorem C9_string_escapes :
    (∀ (doc : UTF8Reader) (start f ptr ulen : Nat) (u : Grapheme),
      doc.look1 (start + ptr) = .ok u →
      ((u = g1 '"' ∨ u = g1 '\\' ∨ u = g1 '/' ∨ u = g1 'b' ∨ u = g1 'f' ∨
        u = g1 'n' ∨ u = g1 'r' ∨ u = g1 't') →
        strLoop doc start (f + 1) .Escaping ptr ulen =
          strLoop doc start f .PlainText (ptr + 1) ulen) ∧
      (u = g1 'u' →
        strLoop doc start (f + 1) .Escaping ptr ulen =
          strLoop doc start f .Unicode (ptr + 1) ulen) ∧
      (¬ (u = g1 '"' ∨ u = g1 '\\' ∨ u = g1 '/' ∨ u = g1 'b' ∨ u = g1 'f' ∨
        u = g1 'n' ∨ u = g1 'r' ∨ u = g1 't') → ¬ (u = g1 'u') →
        strLoop doc start (f + 1) .Escaping ptr ulen =
          some (.error ("Invalid escaping character: "
            ++ rust_debug_str u.str), ptr)) ∧
      (is_hex_digit u = true → ulen + 1 ≠ 4 →
        strLoop doc start (f + 1) .Unicode ptr ulen =
          strLoop doc start f .Unicode (ptr + 1) (ulen + 1)) ∧
      (is_hex_digit u = true → ulen + 1 = 4 →
        strLoop doc start (f + 1) .Unicode ptr ulen =
          strLoop doc start f .PlainText (ptr + 1) 0) ∧
      (is_hex_digit u = false →
        strLoop doc start (f + 1) .Unicode ptr ulen =
          some (.error ("Invalid unicode sequence: "
            ++ rust_debug_str u.str), ptr)) ∧
      (u.hd.toNat ≤ 0x1F →
        strLoop doc start (f + 1) .PlainText ptr ulen =
          some (.error ("Control character \"" ++ u.str
            ++ "\" should be escaped"), ptr))) ∧
    validate (asciiDoc "\"ab\\u00\"") =
      some (.error (verror 7
        ("Invalid unicode sequence: " ++ rust_debug_str "\""))) := by
  constructor
  · intro doc start f ptr ulen u hl
    refine ⟨?_, ?_, ?_, ?_, ?_, ?_, ?_⟩
    · intro hesc
      simp only [strLoop, hl]
      rw [if_pos hesc]
    · rintro rfl
      simp only [strLoop, hl]
      simp
      intro hc
      exact absurd hc (by decide)
    · intro hesc hu
      simp only [strLoop, hl]
      rw [if_neg hesc, if_neg hu]
    · intro hhex hlen4
      simp only [strLoop, hl]
      rw [if_pos hhex, if_neg hlen4]
    · intro hhex hlen4
      simp only [strLoop, hl]
      rw [if_pos hhex, if_pos hlen4]
    · intro hhex
      simp only [strLoop, hl]
      rw [if_neg (by simp [hhex])]
    · intro hctl
      have hq : ¬ (u = g1 '"') := by
        rintro rfl; revert hctl; decide
      have hb : ¬ (u = g1 '\\') := by
        rintro rfl; revert hctl; decide
      have hcc : is_control_character u = true := by
        simp [is_control_character, hctl]
      simp only [strLoop, hl]
      rw [if_neg hq, if_neg hb, if_pos hcc]
  · decide

/-- Witness for `C9_string_escapes`: the machine of `"ab\u00"` at the
closing quote inside the unicode escape, after two hex digits. -/
theorem C9_string_escapes_witness :
    strLoop (asciiDoc "\"ab\\u00\"") 0 (5 + 1) .Unicode 7 2 =
      some (.error ("Invalid unicode sequence: "
        ++ rust_debug_str (g1 '"').str), 7) :=
  (C9_string_escapes.1 (asciiDoc "\"ab\\u00\"") 0 5 7 2 (g1 '"')
    (by decide)).2.2.2.2.2.1 (by decide)
